import Mathlib

/-!
Verification of the data-sample parsing module of the Test-Data-Generation
repository (src/data_sample_parser.rs) against its natural-language
specification.

The DataSampleParser type and its operations are embedded shallowly:

 - the BTreeMap from field name to Profile becomes a key-sorted association
   list (BTreeMap iterates and lists keys in sorted key order, and insert
   overwrites an existing key);
 - the csv crate's record stream becomes a CsvData value: the header record
   plus a list of data records, each a list of textual fields.  The reader
   is built with the default strict record length (flexible is not enabled),
   so a record whose field count differs from the header record's is an
   UnequalLengths error from the csv crate;
 - a Rust panic (result.expect, Option::unwrap, out-of-bounds Vec indexing)
   is modelled by an Option-valued operation returning none.

The Profile type lives in the repository's profile module, which is not part
of the analysed sources; following the specification it is modelled with the
pattern encoder, the four frequency stores, fact emission, finalisation and
the generation algorithm.  The same holds for the Configs type and for the
serde_json archive serialization, which are modelled from the specification
and from the way the analysed source consumes them.
-/

namespace TDG

/-- Modelled from the spec: the punctuation set of the pattern encoder; the
encoder itself lives in the repository's profile module, outside the
analysed sources. -/
def punctChars : List Char :=
  ['.', ',', ';', ':', Char.ofNat 39, Char.ofNat 34, '!', '?', '/', '\\', '-',
   '(', ')', '[', ']', Char.ofNat 123, Char.ofNat 125, '@', Char.ofNat 35,
   '$', '%', '&', '*', '+', '=', '_', '|', '~']

/-- Modelled from the spec: classify one character into the closed tag
alphabet: uppercase U, lowercase u, digit (hash tag), whitespace (space
tag), punctuation p, other (question-mark tag). -/
def classify (c : Char) : Char :=
  if 'A' ≤ c ∧ c ≤ 'Z' then 'U'
  else if 'a' ≤ c ∧ c ≤ 'z' then 'u'
  else if '0' ≤ c ∧ c ≤ '9' then Char.ofNat 35
  else if c = ' ' ∨ c = Char.ofNat 9 ∨ c = Char.ofNat 10 ∨ c = Char.ofNat 13 then ' '
  else if c ∈ punctChars then 'p'
  else '?'

/-- Modelled from the spec: the pattern encoder, one class tag per input
character, preserving order. -/
def encode (v : String) : String := String.mk (v.data.map classify)

/-- Modelled from the spec: a deterministic RNG state step; the concrete
generator is unspecified there, a 64-bit linear congruential step is used. -/
def rngNext (s : Nat) : Nat := (6364136223846793005 * s + 1442695040888963407) % (2 ^ 64)

/-- Modelled from the spec: the position bucket of a character inside a
value (index from start is zero, index from end is zero, or neither). -/
inductive Bucket where
  | first : Bucket
  | mid : Bucket
  | last : Bucket
deriving DecidableEq

/-- Modelled from the spec: a frequency table is a mapping from keys to
counts, kept as an association list in insertion order. -/
abbrev FreqTable (K : Type) := List (K × Nat)

def ftAdd {K : Type} [DecidableEq K] (k : K) : FreqTable K → FreqTable K
  | [] => [(k, 1)]
  | (k', c) :: rest => if k = k' then (k', c + 1) :: rest else (k', c) :: ftAdd k rest

def ftTotal {K : Type} (t : FreqTable K) : Nat := (t.map Prod.snd).sum

def ftSelect {K : Type} : FreqTable K → Nat → Option K
  | [], _ => none
  | (k, c) :: rest, d => if d < c then some k else ftSelect rest (d - c)

/-- Modelled from the spec: weighted sampling; a draw from an empty table
reports the EmptyTable condition (none) without advancing the RNG. -/
def ftSample {K : Type} (t : FreqTable K) (rng : Nat) : Option K × Nat :=
  if ftTotal t = 0 then (none, rng)
  else (ftSelect t (rngNext rng % ftTotal t), rngNext rng)

/-- Modelled from the spec: a fact key is (prior character or the boundary
sentinel, position bucket, character value). -/
abbrev FactKey := Option Char × Bucket × Char

abbrev FactStore := List (Char × FreqTable FactKey)

def factsFor : FactStore → Char → FreqTable FactKey
  | [], _ => []
  | (t, tab) :: rest, tag => if tag = t then tab else factsFor rest tag

def factsAdd (tag : Char) (k : FactKey) : FactStore → FactStore
  | [] => [(tag, [(k, 1)])]
  | (t, tab) :: rest =>
    if tag = t then (t, ftAdd k tab) :: rest else (t, tab) :: factsAdd tag k rest

/-- Modelled from the spec: the per-field Profile of the repository's
profile module (not under the analysed sources): pattern, length and
leading-character frequency tables, the class-partitioned fact store, the
finalisation flag, and the per-profile RNG state (the spec makes the RNG a
per-Parser resource; each profile carries its share of it so that the
mutable-borrow signature of generate is kept). -/
structure Profile where
  patterns : FreqTable String
  lengths : FreqTable Nat
  leading_chars : FreqTable Char
  facts : FactStore
  finalized : Bool
  rng : Nat
deriving DecidableEq

def Profile.new : Profile := ⟨[], [], [], [], false, 0⟩

/-- Modelled from the spec: one fact per character of the analysed value,
keyed into the store of the character's class tag. -/
def emitFacts : Option Char → Bool → List Char → FactStore → FactStore
  | _, _, [], fs => fs
  | prior, isFirst, c :: rest, fs =>
    emitFacts (some c) false rest
      (factsAdd (classify c)
        (prior, (if isFirst then Bucket.first else if rest.isEmpty then Bucket.last else Bucket.mid), c)
        fs)

/-- Modelled from the spec: Profile.analyze updates the pattern, length,
leading-character and fact statistics from one value; empty values are
ignored. -/
def Profile.analyze (pr : Profile) (v : String) : Profile :=
  match v.data with
  | [] => pr
  | c :: _ =>
    { pr with
      patterns := ftAdd (encode v) pr.patterns
      lengths := ftAdd v.data.length pr.lengths
      leading_chars := ftAdd c pr.leading_chars
      facts := emitFacts none true v.data pr.facts }

/-- Modelled from the spec: finalisation marks the profile ready for
generation; cumulative weights are recomputed on demand when sampling, so
observable sampling behaviour is the same. -/
def Profile.pre_generate (pr : Profile) : Profile := { pr with finalized := true }

/-- Modelled from the spec: the literal class representative used when a
class has no facts at all. -/
def classDefault (tag : Char) : Char :=
  if tag = 'U' then 'A'
  else if tag = 'u' then 'a'
  else if tag = Char.ofNat 35 then '0'
  else if tag = ' ' then ' '
  else if tag = 'p' then '?'
  else Char.ofNat 183

/-- Modelled from the spec: sample a character of the given class with the
relaxation chain (exact prior and bucket, then drop the bucket, then drop
the prior, then the class default literal). -/
def sampleFactChar (pr : Profile) (tag : Char) (prior : Option Char) (bucket : Bucket)
    (rng : Nat) : Char × Nat :=
  match ftSample ((factsFor pr.facts tag).filter
      (fun e => decide (e.1.1 = prior ∧ e.1.2.1 = bucket))) rng with
  | (some k, r) => (k.2.2, r)
  | (none, r) =>
    match ftSample ((factsFor pr.facts tag).filter (fun e => decide (e.1.1 = prior))) r with
    | (some k, r2) => (k.2.2, r2)
    | (none, r2) =>
      match ftSample (factsFor pr.facts tag) r2 with
      | (some k, r3) => (k.2.2, r3)
      | (none, r3) => (classDefault tag, r3)

/-- Modelled from the spec: draw the characters of a generated value along
the sampled pattern; the leading character comes from the leading-character
table when a matching class is recorded there. -/
def genChars (pr : Profile) : List Char → Option Char → Bool → Nat → List Char × Nat
  | [], _, _, rng => ([], rng)
  | tag :: rest, prior, isFirst, rng =>
    let step :=
      if isFirst then
        match ftSample (pr.leading_chars.filter (fun e => decide (classify e.1 = tag))) rng with
        | (some c, r) => (c, r)
        | (none, r) => sampleFactChar pr tag none Bucket.first r
      else
        sampleFactChar pr tag prior (if rest.isEmpty then Bucket.last else Bucket.mid) rng
    let tail := genChars pr rest (some step.1) false step.2
    (step.1 :: tail.1, tail.2)

/-- Modelled from the spec: Profile.generate samples a length, then a
pattern of that length (falling back to an unconditioned pattern and its
own length), then the characters; a profile that analysed no values
generates the empty string. -/
def Profile.generate (pr : Profile) : String × Profile :=
  match ftSample pr.lengths pr.rng with
  | (none, _) => ("", pr)
  | (some L, r1) =>
    match ftSample (pr.patterns.filter (fun e => decide (e.1.length = L))) r1 with
    | (some P, r2) =>
      let g := genChars pr P.data none true r2
      (String.mk g.1, { pr with rng := g.2 })
    | (none, r2) =>
      match ftSample pr.patterns r2 with
      | (some P, r3) =>
        let g := genChars pr P.data none true r3
        (String.mk g.1, { pr with rng := g.2 })
      | (none, r3) => ("", { pr with rng := r3 })

/-- Lexicographic strict order on character lists by code point; on strings
this agrees with the byte-wise Ord of Rust String keys, since UTF-8
preserves code-point order. -/
def charsLt : List Char → List Char → Bool
  | [], [] => false
  | [], _ :: _ => true
  | _ :: _, [] => false
  | a :: s, b :: t =>
    if a.toNat = b.toNat then charsLt s t
    else decide (a.toNat < b.toNat)

/-- The key order of the BTreeMap of profiles. -/
def strLt (a b : String) : Bool := charsLt a.data b.data

/-- The BTreeMap from field name to Profile, as a key-sorted association
list. -/
abbrev ProfilesMap := List (String × Profile)

def pmKeys : ProfilesMap → List String
  | [] => []
  | kv :: rest => kv.1 :: pmKeys rest

/-- BTreeMap::insert: sorted insertion, overwriting an existing key. -/
def pmInsert (k : String) (v : Profile) : ProfilesMap → ProfilesMap
  | [] => [(k, v)]
  | (k', v') :: rest =>
    if strLt k k' then (k, v) :: (k', v') :: rest
    else if k = k' then (k, v) :: rest
    else (k', v') :: pmInsert k v rest

def pmLookup (k : String) : ProfilesMap → Option Profile
  | [] => none
  | (k', v') :: rest => if k = k' then some v' else pmLookup k rest

/-- BTreeMap::get_mut followed by a mutation of the found entry. -/
def pmUpdate (k : String) (f : Profile → Profile) : ProfilesMap → ProfilesMap
  | [] => []
  | (k', v') :: rest => if k = k' then (k', f v') :: rest else (k', v') :: pmUpdate k f rest

/-- Modelled from the code: the configuration object of the configs module
(not under the analysed sources); its contents play no role here beyond
being carried by the struct. -/
structure Configs where
  path : String
deriving DecidableEq

/-- The DataSampleParser struct: the public issues flag, the optional
Configs and the BTreeMap of profiles. -/
structure DataSampleParser where
  issues : Bool
  cfg : Option Configs
  profiles : ProfilesMap
deriving DecidableEq

def DataSampleParser.new : DataSampleParser := ⟨false, none, []⟩

def DataSampleParser.new_with (path : String) : DataSampleParser := ⟨false, some ⟨path⟩, []⟩

/-- A csv input as the csv crate hands it to analyze_csv_data: the header
record followed by the data records, each a list of textual fields. -/
structure CsvData where
  header : List String
  rows : List (List String)

/-- The header loop: one fresh Profile inserted per header field; a
duplicate header name silently overwrites the previous entry. -/
def headerProfiles (m : ProfilesMap) (hs : List String) : ProfilesMap :=
  hs.foldl (fun acc h => pmInsert h Profile.new acc) m

/-- One record's field loop: field idx is routed to
profiles.get_mut(&profile_keys[idx]); indexing profile_keys beyond its
length is a Rust panic, modelled none. -/
def routeRowAux (keys : List String) : ProfilesMap → Nat → List String → Option ProfilesMap
  | m, _, [] => some m
  | m, idx, f :: rest =>
    match keys.get? idx with
    | none => none
    | some k => routeRowAux keys (pmUpdate k (fun pr => pr.analyze f) m) (idx + 1) rest

/-- The record loop: the csv reader is strict about record length, so a
record whose field count differs from the header's is an UnequalLengths
error and result.expect panics (none). -/
def analyzeRows (keys : List String) (hlen : Nat) :
    ProfilesMap → List (List String) → Option ProfilesMap
  | m, [] => some m
  | m, row :: rest =>
    if row.length = hlen then
      match routeRowAux keys m 0 row with
      | none => none
      | some m' => analyzeRows keys hlen m' rest
    else none

/-- The profiles.iter_mut().for_each(pre_generate) pass after the record
loop. -/
def preGenAll (m : ProfilesMap) : ProfilesMap := m.map (fun kv => (kv.1, kv.2.pre_generate))

/-- analyze_csv_data: register a profile per header field, route every
record's fields to the profiles picked by index from the sorted key vector,
pre-generate every profile, and return Ok(1). -/
def analyze_csv_data (p : DataSampleParser) (d : CsvData) : Option (DataSampleParser × Int) :=
  match analyzeRows (pmKeys (headerProfiles p.profiles d.header)) d.header.length
      (headerProfiles p.profiles d.header) d.rows with
  | none => none
  | some m => some ({ p with profiles := preGenAll m }, 1)

/-- The state after an analyze_csv_data call; when the call panics there is
no mutated state to observe, so the prior state is kept. -/
def afterAnalyze (p : DataSampleParser) (d : CsvData) : DataSampleParser :=
  match analyze_csv_data p d with
  | some (q, _) => q
  | none => p

/-- extract_headers: push every profile key in map iteration order. -/
def extract_headers (p : DataSampleParser) : List String := pmKeys p.profiles

/-- generate_by_field_name: profiles.get_mut(&field).unwrap().generate();
the unwrap of a missing field is a Rust panic, modelled none. -/
def generate_by_field_name (p : DataSampleParser) (field : String) :
    Option (String × DataSampleParser) :=
  match pmLookup field p.profiles with
  | none => none
  | some pr =>
    some ((pr.generate).1,
      { p with profiles := pmUpdate field (fun _ => (pr.generate).2) p.profiles })

/-- One generation pass over every profile in map iteration order. -/
def genProfiles : ProfilesMap → List String × ProfilesMap
  | [] => ([], [])
  | (k, pr) :: rest =>
    ((pr.generate).1 :: (genProfiles rest).1, (k, (pr.generate).2) :: (genProfiles rest).2)

/-- generate_record: one generated value per profile, in map iteration
order. -/
def generate_record (p : DataSampleParser) : List String × DataSampleParser :=
  ((genProfiles p.profiles).1, { p with profiles := (genProfiles p.profiles).2 })

def genRowsN : Nat → ProfilesMap → ProfilesMap
  | 0, m => m
  | n + 1, m => genRowsN n (genProfiles m).2

/-- generate_csv's effect on the parsing state: row_count generation passes
over the profiles (the writing of the header and records to the csv file is
external I/O). -/
def generate_csv (p : DataSampleParser) (row_count : Nat) : DataSampleParser :=
  { p with profiles := genRowsN row_count p.profiles }

def running_with_issues (p : DataSampleParser) : Bool := p.issues

/-- The levenshtein crate's edit distance (insertion, deletion and
substitution all cost 1), on character lists. -/
def levDist : List Char → List Char → Nat
  | [], t => t.length
  | _ :: s, [] => s.length + 1
  | a :: s, b :: t =>
    if a = b then levDist s t
    else 1 + min (levDist s t) (min (levDist (a :: s) t) (levDist s (b :: t)))
termination_by s t => s.length + t.length

def levenshtein_distance (control experiment : String) : Nat :=
  levDist control.data experiment.data

/-- realistic_test exactly as the source computes it, over exact rationals:
ld, total = len(control) + len(experiment), diff = total - ld, and the
result (1 - ((total - diff) / total)) * 100.  The source's f64 byte-length
arithmetic coincides with this on the ASCII inputs considered, except that
0/0 is NaN in f64 while it is 0 here, so statements about empty inputs are
avoided. -/
def realistic_test (control experiment : String) : ℚ :=
  (1 - ((((control.length : ℚ) + (experiment.length : ℚ)) -
        (((control.length : ℚ) + (experiment.length : ℚ)) -
          (levenshtein_distance control experiment : ℚ))) /
      ((control.length : ℚ) + (experiment.length : ℚ)))) * 100

/-- Modelled from the spec: the JSON document tree written by the archive
serialization (serde_json on the whole struct). -/
inductive Json where
  | jstr : String → Json
  | jnum : Nat → Json
  | jbool : Bool → Json
  | jnull : Json
  | jarr : List Json → Json

def encChar (c : Char) : Json := .jstr (String.mk [c])

def decChar : Json → Option Char
  | .jstr ⟨[c]⟩ => some c
  | _ => none

def decStr : Json → Option String
  | .jstr s => some s
  | _ => none

def decNatJ : Json → Option Nat
  | .jnum n => some n
  | _ => none

def decBool : Json → Option Bool
  | .jbool b => some b
  | _ => none

def encOptChar : Option Char → Json
  | none => .jnull
  | some c => encChar c

def decOptChar : Json → Option (Option Char)
  | .jnull => some none
  | .jstr ⟨[c]⟩ => some (some c)
  | _ => none

def encBucket : Bucket → Json
  | .first => .jnum 0
  | .mid => .jnum 1
  | .last => .jnum 2

def decBucket : Json → Option Bucket
  | .jnum 0 => some .first
  | .jnum 1 => some .mid
  | .jnum 2 => some .last
  | _ => none

def encFactKey (k : FactKey) : Json := .jarr [encOptChar k.1, encBucket k.2.1, encChar k.2.2]

def decFactKey : Json → Option FactKey
  | .jarr [a, b, c] =>
    match decOptChar a, decBucket b, decChar c with
    | some pc, some bk, some cv => some (pc, bk, cv)
    | _, _, _ => none
  | _ => none

def encEntry {K : Type} (encK : K → Json) (e : K × Nat) : Json := .jarr [encK e.1, .jnum e.2]

def decEntry {K : Type} (decK : Json → Option K) : Json → Option (K × Nat)
  | .jarr [jk, .jnum n] =>
    match decK jk with
    | some k => some (k, n)
    | none => none
  | _ => none

def decList {α : Type} (dec : Json → Option α) : List Json → Option (List α)
  | [] => some []
  | j :: js =>
    match dec j, decList dec js with
    | some a, some as => some (a :: as)
    | _, _ => none

def encTable {K : Type} (encK : K → Json) (t : FreqTable K) : Json :=
  .jarr (t.map (encEntry encK))

def decTable {K : Type} (decK : Json → Option K) : Json → Option (FreqTable K)
  | .jarr js => decList (decEntry decK) js
  | _ => none

def encFactsEntry (e : Char × FreqTable FactKey) : Json :=
  .jarr [encChar e.1, encTable encFactKey e.2]

def decFactsEntry : Json → Option (Char × FreqTable FactKey)
  | .jarr [a, b] =>
    match decChar a, decTable decFactKey b with
    | some c, some t => some (c, t)
    | _, _ => none
  | _ => none

def decFacts : Json → Option FactStore
  | .jarr ds => decList decFactsEntry ds
  | _ => none

def encProfile (pr : Profile) : Json :=
  .jarr [encTable Json.jstr pr.patterns, encTable Json.jnum pr.lengths,
    encTable encChar pr.leading_chars, .jarr (pr.facts.map encFactsEntry),
    .jbool pr.finalized, .jnum pr.rng]

def decProfile : Json → Option Profile
  | .jarr [a, b, c, d, e, f] =>
    match decTable decStr a, decTable decNatJ b, decTable decChar c, decFacts d,
        decBool e, decNatJ f with
    | some pats, some lens, some lead, some fs, some fin, some r =>
      some ⟨pats, lens, lead, fs, fin, r⟩
    | _, _, _, _, _, _ => none
  | _ => none

def encProfilesEntry (e : String × Profile) : Json := .jarr [.jstr e.1, encProfile e.2]

def decProfilesEntry : Json → Option (String × Profile)
  | .jarr [a, b] =>
    match decStr a, decProfile b with
    | some k, some pr => some (k, pr)
    | _, _ => none
  | _ => none

def encCfg : Option Configs → Json
  | none => .jnull
  | some c => .jstr c.path

def decCfg : Json → Option (Option Configs)
  | .jnull => some none
  | .jstr s => some (some ⟨s⟩)
  | _ => none

/-- save: serde_json::to_string of the whole struct; the document content is
modelled, writing it to the archive file is external I/O. -/
def save (p : DataSampleParser) : Json :=
  .jarr [.jbool p.issues, encCfg p.cfg, .jarr (p.profiles.map encProfilesEntry)]

/-- from_file: read the archive and serde_json::from_str(...).unwrap(); the
unwrap of a malformed document is a Rust panic, modelled none. -/
def from_file : Json → Option DataSampleParser
  | .jarr [i, c, .jarr ps] =>
    match decBool i, decCfg c, decList decProfilesEntry ps with
    | some issues, some cfg, some profs => some ⟨issues, cfg, profs⟩
    | _, _, _ => none
  | _ => none

/-- The calls a caller can make on one DataSampleParser after construction,
for the issues-flag invariant. -/
inductive ParserOp where
  | analyzeOp : CsvData → ParserOp
  | genRecordOp : ParserOp
  | genByFieldOp : String → ParserOp
  | extractHeadersOp : ParserOp
  | genCsvOp : Nat → ParserOp

/-- The state transition of one call; extract_headers takes a mutable
borrow but writes nothing. -/
def applyOp (p : DataSampleParser) : ParserOp → DataSampleParser
  | .analyzeOp d => afterAnalyze p d
  | .genRecordOp => (generate_record p).2
  | .genByFieldOp f =>
    match generate_by_field_name p f with
    | some (_, q) => q
    | none => p
  | .extractHeadersOp => p
  | .genCsvOp n => generate_csv p n

def runOps (p : DataSampleParser) (ops : List ParserOp) : DataSampleParser :=
  ops.foldl applyOp p

/-- A parser as the two constructors build it: new, or new_with a
configuration path. -/
def initParser : Option String → DataSampleParser
  | none => DataSampleParser.new
  | some path => DataSampleParser.new_with path

/-! ## Helper lemmas -/

theorem string_data_inj {a b : String} (h : a.data = b.data) : a = b := by
  cases a with
  | mk da =>
    cases b with
    | mk db =>
      have hd : da = db := by simpa using h
      rw [hd]

theorem charsLt_trans : ∀ a b c : List Char,
    charsLt a b = true → charsLt b c = true → charsLt a c = true := by
  intro a
  induction a with
  | nil =>
    intro b c h1 h2
    cases b with
    | nil => simp [charsLt] at h1
    | cons y t =>
      cases c with
      | nil => simp [charsLt] at h2
      | cons z u => simp [charsLt]
  | cons x s ih =>
    intro b c h1 h2
    cases b with
    | nil => simp [charsLt] at h1
    | cons y t =>
      cases c with
      | nil => simp [charsLt] at h2
      | cons z u =>
        simp only [charsLt] at h1 h2 ⊢
        by_cases hxy : x.toNat = y.toNat
        · rw [if_pos hxy] at h1
          by_cases hyz : y.toNat = z.toNat
          · rw [if_pos hyz] at h2
            rw [if_pos (hxy.trans hyz)]
            exact ih t u h1 h2
          · rw [if_neg hyz] at h2
            have hlt : y.toNat < z.toNat := of_decide_eq_true h2
            rw [if_neg (show ¬ x.toNat = z.toNat by omega)]
            exact decide_eq_true (by omega)
        · rw [if_neg hxy] at h1
          have hlt : x.toNat < y.toNat := of_decide_eq_true h1
          by_cases hyz : y.toNat = z.toNat
          · rw [if_neg (show ¬ x.toNat = z.toNat by omega)]
            exact decide_eq_true (by omega)
          · rw [if_neg hyz] at h2
            have hlt2 : y.toNat < z.toNat := of_decide_eq_true h2
            rw [if_neg (show ¬ x.toNat = z.toNat by omega)]
            exact decide_eq_true (by omega)

theorem charsLt_total : ∀ a b : List Char,
    charsLt a b = false → a ≠ b → charsLt b a = true := by
  intro a
  induction a with
  | nil =>
    intro b h1 h2
    cases b with
    | nil => exact absurd rfl h2
    | cons y t => simp [charsLt] at h1
  | cons x s ih =>
    intro b h1 h2
    cases b with
    | nil => simp [charsLt]
    | cons y t =>
      simp only [charsLt] at h1 ⊢
      by_cases hxy : x.toNat = y.toNat
      · rw [if_pos hxy] at h1
        rw [if_pos hxy.symm]
        have hx : x = y := Char.ext (UInt32.ext hxy)
        refine ih t h1 ?_
        intro he
        exact h2 (by rw [hx, he])
      · rw [if_neg hxy] at h1
        have hnlt : ¬ x.toNat < y.toNat := of_decide_eq_false h1
        rw [if_neg (fun he => hxy he.symm)]
        exact decide_eq_true (by omega)

theorem strLt_trans {a b c : String} (h1 : strLt a b = true) (h2 : strLt b c = true) :
    strLt a c = true := charsLt_trans a.data b.data c.data h1 h2

theorem strLt_total {a b : String} (h1 : strLt a b = false) (h2 : a ≠ b) :
    strLt b a = true :=
  charsLt_total a.data b.data h1 (fun he => h2 (string_data_inj he))

theorem pmUpdate_keys (k : String) (f : Profile → Profile) (m : ProfilesMap) :
    pmKeys (pmUpdate k f m) = pmKeys m := by
  induction m with
  | nil => rfl
  | cons kv rest ih =>
    rcases kv with ⟨k', v'⟩
    by_cases h : k = k'
    · simp [pmUpdate, h, pmKeys]
    · simp [pmUpdate, h, pmKeys, ih]

theorem pmUpdate_lookup_ne (k k' : String) (f : Profile → Profile) (h : k' ≠ k)
    (m : ProfilesMap) : pmLookup k' (pmUpdate k f m) = pmLookup k' m := by
  induction m with
  | nil => rfl
  | cons kv rest ih =>
    rcases kv with ⟨k0, v0⟩
    by_cases h1 : k = k0
    · subst h1
      simp [pmUpdate, pmLookup, h]
    · by_cases h2 : k' = k0 <;> simp [pmUpdate, pmLookup, h1, h2, ih]

theorem pmInsert_mem_keys (k : String) (v : Profile) (m : ProfilesMap) (b : String) :
    b ∈ pmKeys (pmInsert k v m) → b = k ∨ b ∈ pmKeys m := by
  induction m with
  | nil =>
    intro hb
    simp [pmInsert, pmKeys] at hb
    exact Or.inl hb
  | cons kv rest ih =>
    rcases kv with ⟨k0, v0⟩
    intro hb
    by_cases h1 : strLt k k0 = true
    · simp only [pmInsert, if_pos h1, pmKeys, List.mem_cons] at hb
      simp only [pmKeys, List.mem_cons]
      tauto
    · by_cases h2 : k = k0
      · simp only [pmInsert, if_neg h1, if_pos h2, pmKeys, List.mem_cons] at hb
        simp only [pmKeys, List.mem_cons]
        tauto
      · simp only [pmInsert, if_neg h1, if_neg h2, pmKeys, List.mem_cons] at hb
        simp only [pmKeys, List.mem_cons]
        rcases hb with hb | hb
        · tauto
        · rcases ih hb with hb | hb <;> tauto

theorem pmInsert_sorted (k : String) (v : Profile) (m : ProfilesMap) :
    (pmKeys m).Pairwise (fun a b => strLt a b = true) →
    (pmKeys (pmInsert k v m)).Pairwise (fun a b => strLt a b = true) := by
  induction m with
  | nil =>
    intro _
    simp [pmInsert, pmKeys]
  | cons kv rest ih =>
    rcases kv with ⟨k0, v0⟩
    intro h
    simp only [pmKeys, List.pairwise_cons] at h
    obtain ⟨hhead, htail⟩ := h
    by_cases h1 : strLt k k0 = true
    · simp only [pmInsert, if_pos h1, pmKeys, List.pairwise_cons]
      refine ⟨?_, ?_, htail⟩
      · intro b hb
        rcases List.mem_cons.mp hb with hb | hb
        · exact hb ▸ h1
        · exact strLt_trans h1 (hhead b hb)
      · exact hhead
    · by_cases h2 : k = k0
      · subst h2
        simp only [pmInsert, if_neg h1, if_pos rfl, pmKeys, List.pairwise_cons]
        exact ⟨hhead, htail⟩
      · have h1' : strLt k k0 = false := by
          simpa using h1
        have h3 : strLt k0 k = true := strLt_total h1' h2
        simp only [pmInsert, if_neg h1, if_neg h2, pmKeys, List.pairwise_cons]
        refine ⟨?_, ih htail⟩
        intro b hb
        rcases pmInsert_mem_keys k v rest b hb with hb | hb
        · exact hb ▸ h3
        · exact hhead b hb

theorem headerProfiles_sorted (hs : List String) :
    ∀ m : ProfilesMap, (pmKeys m).Pairwise (fun a b => strLt a b = true) →
      (pmKeys (headerProfiles m hs)).Pairwise (fun a b => strLt a b = true) := by
  induction hs with
  | nil => intro m h; exact h
  | cons hd tl ih =>
    intro m h
    exact ih (pmInsert hd Profile.new m) (pmInsert_sorted hd Profile.new m h)

theorem routeRowAux_keys (keys : List String) (row : List String) :
    ∀ (m m' : ProfilesMap) (i : Nat),
      routeRowAux keys m i row = some m' → pmKeys m' = pmKeys m := by
  induction row with
  | nil =>
    intro m m' i h
    simp only [routeRowAux, Option.some.injEq] at h
    rw [h]
  | cons f rest ih =>
    intro m m' i h
    simp only [routeRowAux] at h
    cases hk : keys.get? i with
    | none => rw [hk] at h; exact absurd h (by simp)
    | some k =>
      rw [hk] at h
      rw [ih _ _ _ h, pmUpdate_keys]

theorem analyzeRows_keys (keys : List String) (hlen : Nat) (rows : List (List String)) :
    ∀ (m m' : ProfilesMap),
      analyzeRows keys hlen m rows = some m' → pmKeys m' = pmKeys m := by
  induction rows with
  | nil =>
    intro m m' h
    simp only [analyzeRows, Option.some.injEq] at h
    rw [h]
  | cons row rest ih =>
    intro m m' h
    simp only [analyzeRows] at h
    by_cases hl : row.length = hlen
    · rw [if_pos hl] at h
      cases hr : routeRowAux keys m 0 row with
      | none => rw [hr] at h; exact absurd h (by simp)
      | some m1 =>
        rw [hr] at h
        rw [ih m1 m' h, routeRowAux_keys keys row m m1 0 hr]
    · rw [if_neg hl] at h
      exact absurd h (by simp)

theorem preGenAll_keys (m : ProfilesMap) : pmKeys (preGenAll m) = pmKeys m := by
  induction m with
  | nil => rfl
  | cons kv rest ih => simp [preGenAll, pmKeys, ih] at ih ⊢

theorem analyze_csv_data_some (p : DataSampleParser) (d : CsvData) (q : DataSampleParser)
    (n : Int) (h : analyze_csv_data p d = some (q, n)) :
    ∃ m, analyzeRows (pmKeys (headerProfiles p.profiles d.header)) d.header.length
        (headerProfiles p.profiles d.header) d.rows = some m ∧
      q = { p with profiles := preGenAll m } ∧ n = 1 := by
  unfold analyze_csv_data at h
  cases hr : analyzeRows (pmKeys (headerProfiles p.profiles d.header)) d.header.length
      (headerProfiles p.profiles d.header) d.rows with
  | none => rw [hr] at h; exact absurd h (by simp)
  | some m =>
    rw [hr] at h
    simp only [Option.some.injEq, Prod.mk.injEq] at h
    exact ⟨m, rfl, h.1.symm, h.2.symm⟩

theorem analyze_csv_data_issues (p : DataSampleParser) (d : CsvData) (q : DataSampleParser)
    (n : Int) (h : analyze_csv_data p d = some (q, n)) : q.issues = p.issues := by
  obtain ⟨m, -, hq, -⟩ := analyze_csv_data_some p d q n h
  rw [hq]

theorem analyze_profiles_sorted (p : DataSampleParser) (d : CsvData)
    (hs : (pmKeys p.profiles).Pairwise (fun a b => strLt a b = true))
    (q : DataSampleParser) (n : Int) (h : analyze_csv_data p d = some (q, n)) :
    (pmKeys q.profiles).Pairwise (fun a b => strLt a b = true) := by
  obtain ⟨m, hm, hq, -⟩ := analyze_csv_data_some p d q n h
  rw [hq]
  show (pmKeys (preGenAll m)).Pairwise (fun a b => strLt a b = true)
  rw [preGenAll_keys, analyzeRows_keys _ _ _ _ _ hm]
  exact headerProfiles_sorted d.header p.profiles hs

theorem genProfiles_len (m : ProfilesMap) : (genProfiles m).1.length = m.length := by
  induction m with
  | nil => rfl
  | cons kv rest ih =>
    rcases kv with ⟨k, pr⟩
    simp [genProfiles, ih]

theorem pmKeys_len (m : ProfilesMap) : (pmKeys m).length = m.length := by
  induction m with
  | nil => rfl
  | cons kv rest ih => simp [pmKeys, ih]

theorem generate_record_len (q : DataSampleParser) :
    (generate_record q).1.length = (extract_headers q).length := by
  show (genProfiles q.profiles).1.length = (pmKeys q.profiles).length
  rw [genProfiles_len, pmKeys_len]

theorem generate_by_field_name_some {p : DataSampleParser} {f s : String}
    {q : DataSampleParser} (h : generate_by_field_name p f = some (s, q)) :
    ∃ pr, pmLookup f p.profiles = some pr ∧
      q = { p with profiles := pmUpdate f (fun _ => (pr.generate).2) p.profiles } := by
  unfold generate_by_field_name at h
  cases hl : pmLookup f p.profiles with
  | none => rw [hl] at h; exact absurd h (by simp)
  | some pr =>
    rw [hl] at h
    simp only [Option.some.injEq, Prod.mk.injEq] at h
    exact ⟨pr, rfl, h.2.symm⟩

theorem applyOp_issues (p : DataSampleParser) (op : ParserOp) :
    (applyOp p op).issues = p.issues := by
  cases op with
  | analyzeOp d =>
    show (afterAnalyze p d).issues = p.issues
    unfold afterAnalyze
    cases h : analyze_csv_data p d with
    | none => rfl
    | some qn =>
      rcases qn with ⟨q, n⟩
      exact analyze_csv_data_issues p d q n h
  | genRecordOp => rfl
  | genByFieldOp f =>
    show (match generate_by_field_name p f with
      | some (_, q) => q
      | none => p).issues = p.issues
    cases h : generate_by_field_name p f with
    | none => rfl
    | some sq =>
      rcases sq with ⟨s, q⟩
      obtain ⟨pr, -, hq⟩ := generate_by_field_name_some h
      rw [hq]
  | extractHeadersOp => rfl
  | genCsvOp n => rfl

theorem levDist_self (s : List Char) : levDist s s = 0 := by
  induction s with
  | nil => simp [levDist]
  | cons a s ih => simp [levDist, ih]

/-! ## Archive codec round-trip lemmas -/

theorem decChar_enc (c : Char) : decChar (encChar c) = some c := rfl

theorem decOptChar_enc (oc : Option Char) : decOptChar (encOptChar oc) = some oc := by
  cases oc <;> rfl

theorem decBucket_enc (b : Bucket) : decBucket (encBucket b) = some b := by
  cases b <;> rfl

theorem decFactKey_enc (k : FactKey) : decFactKey (encFactKey k) = some k := by
  rcases k with ⟨pc, bk, cv⟩
  cases pc <;> cases bk <;> rfl

theorem decEntry_enc {K : Type} (decK : Json → Option K) (encK : K → Json)
    (h : ∀ a, decK (encK a) = some a) (e : K × Nat) :
    decEntry decK (encEntry encK e) = some e := by
  rcases e with ⟨k, n⟩
  simp [encEntry, decEntry, h k]

theorem decList_enc {α : Type} (dec : Json → Option α) (enc : α → Json)
    (h : ∀ a, dec (enc a) = some a) (l : List α) : decList dec (l.map enc) = some l := by
  induction l with
  | nil => rfl
  | cons a l ih => simp [decList, h a, ih]

theorem decTable_enc {K : Type} (decK : Json → Option K) (encK : K → Json)
    (h : ∀ a, decK (encK a) = some a) (t : FreqTable K) :
    decTable decK (encTable encK t) = some t := by
  simp [encTable, decTable, decList_enc _ _ (decEntry_enc decK encK h)]

theorem decFactsEntry_enc (e : Char × FreqTable FactKey) :
    decFactsEntry (encFactsEntry e) = some e := by
  rcases e with ⟨c, t⟩
  simp [encFactsEntry, decFactsEntry, encChar, decChar,
    decTable_enc decFactKey encFactKey decFactKey_enc]

theorem decProfile_enc (pr : Profile) : decProfile (encProfile pr) = some pr := by
  rcases pr with ⟨pats, lens, lead, fs, fin, r⟩
  simp [encProfile, decProfile, decFacts, decBool, decNatJ,
    decTable_enc decStr Json.jstr (fun s => rfl),
    decTable_enc decNatJ Json.jnum (fun n => rfl),
    decTable_enc decChar encChar decChar_enc,
    decList_enc _ _ decFactsEntry_enc]

theorem decProfilesEntry_enc (e : String × Profile) :
    decProfilesEntry (encProfilesEntry e) = some e := by
  rcases e with ⟨k, pr⟩
  simp [encProfilesEntry, decProfilesEntry, decStr, decProfile_enc pr]

theorem decCfg_enc (c : Option Configs) : decCfg (encCfg c) = some c := by
  cases c <;> rfl

/-! ## Claim theorems -/

/-- C1 counterexample: analyze_csv_data does not return the number of rows
consumed: the two-row input below succeeds and returns 1, and the claim's
own particular input (header a,b,c with the single short row x,y) does not
return a count at all, it panics in the record iteration (none). -/
theorem c1_counterexample :
    (analyze_csv_data DataSampleParser.new ⟨["a"], [["x"], ["y"]]⟩).map Prod.snd = some 1 ∧
      (⟨["a"], [["x"], ["y"]]⟩ : CsvData).rows.length = 2 ∧ (1 : Int) ≠ 2 ∧
      analyze_csv_data DataSampleParser.new ⟨["a", "b", "c"], [["x", "y"]]⟩ = none := by
  refine ⟨by decide, by decide, by decide, by decide⟩

/-- C1 (amended): on every input, analyze_csv_data either panics (none) or
returns the constant 1, regardless of how many rows were consumed. -/
theorem c1_return_is_constant_one (p : DataSampleParser) (d : CsvData) :
    analyze_csv_data p d = none ∨ (analyze_csv_data p d).map Prod.snd = some 1 := by
  unfold analyze_csv_data
  cases hr : analyzeRows (pmKeys (headerProfiles p.profiles d.header)) d.header.length
      (headerProfiles p.profiles d.header) d.rows with
  | none => exact Or.inl rfl
  | some m => exact Or.inr rfl

/-- C2 counterexample: a duplicate header is not rejected: analyzing the
header a,a with no data rows succeeds (so no DuplicateField error is ever
produced) and the two equal names are silently merged into one profile. -/
theorem c2_counterexample :
    (analyze_csv_data DataSampleParser.new ⟨["a", "a"], []⟩).isSome = true ∧
      extract_headers (afterAnalyze DataSampleParser.new ⟨["a", "a"], []⟩) = ["a"] := by
  refine ⟨by decide, by decide⟩

/-- C2 (amended): duplicate header names are silently merged by the
overwriting BTreeMap insert: with no data rows analysis succeeds with a
single profile for the name, and with any data row the index-based field
routing panics (none), because the key vector is shorter than the record. -/
theorem c2_duplicate_headers_merged :
    (∀ (r : List String) (rs : List (List String)),
        analyze_csv_data DataSampleParser.new ⟨["a", "a"], r :: rs⟩ = none) ∧
      (analyze_csv_data DataSampleParser.new ⟨["a", "a"], []⟩).isSome = true ∧
      extract_headers (afterAnalyze DataSampleParser.new ⟨["a", "a"], []⟩) = ["a"] := by
  refine ⟨?_, by decide, by decide⟩
  intro r rs
  cases h : analyze_csv_data DataSampleParser.new ⟨["a", "a"], r :: rs⟩ with
  | none => rfl
  | some qn =>
    exfalso
    rcases qn with ⟨q, n⟩
    obtain ⟨m, hm, -, -⟩ := analyze_csv_data_some _ _ _ _ h
    have hm' : analyzeRows ["a"] 2 [("a", Profile.new)] (r :: rs) = some m := hm
    by_cases hl : r.length = 2
    · obtain ⟨x, y, rfl⟩ := List.length_eq_two.mp hl
      simp [analyzeRows, routeRowAux, List.get?] at hm'
    · simp [analyzeRows, hl] at hm'

/-- C3 counterexample: after ingesting the header b,a the field names come
back in sorted order a,b, not in the order of first appearance b,a. -/
theorem c3_counterexample :
    extract_headers (afterAnalyze DataSampleParser.new ⟨["b", "a"], []⟩) = ["a", "b"] ∧
      (["a", "b"] : List String) ≠ ["b", "a"] := by
  refine ⟨by decide, by decide⟩

/-- C3 (amended): the BTreeMap of profiles lists field names in strictly
ascending lexicographic key order, so extract_headers after an
analyze_csv_data call is sorted (not first-appearance) order, and
generate_record produces exactly one value per field in that same map
order. -/
theorem c3_headers_sorted (p : DataSampleParser) (d : CsvData)
    (hs : (pmKeys p.profiles).Pairwise (fun a b => strLt a b = true)) :
    (extract_headers (afterAnalyze p d)).Pairwise (fun a b => strLt a b = true) ∧
      (generate_record (afterAnalyze p d)).1.length =
        (extract_headers (afterAnalyze p d)).length := by
  refine ⟨?_, generate_record_len _⟩
  show (pmKeys (afterAnalyze p d).profiles).Pairwise (fun a b => strLt a b = true)
  unfold afterAnalyze
  cases h : analyze_csv_data p d with
  | none => exact hs
  | some qn =>
    rcases qn with ⟨q, n⟩
    exact analyze_profiles_sorted p d hs q n h

/-- C3 witness: the sortedness hypothesis holds for a freshly constructed
DataSampleParser, and the amended claim follows for the b,a header. -/
theorem c3_witness :
    (pmKeys DataSampleParser.new.profiles).Pairwise (fun a b => strLt a b = true) ∧
      ((extract_headers (afterAnalyze DataSampleParser.new ⟨["b", "a"], []⟩)).Pairwise
          (fun a b => strLt a b = true) ∧
        (generate_record (afterAnalyze DataSampleParser.new ⟨["b", "a"], []⟩)).1.length =
          (extract_headers (afterAnalyze DataSampleParser.new ⟨["b", "a"], []⟩)).length) :=
  ⟨List.Pairwise.nil, c3_headers_sorted DataSampleParser.new ⟨["b", "a"], []⟩ List.Pairwise.nil⟩

/-- C4 counterexample: a row whose field count differs from the header is
not absorbed: both the short row under header a,b,c and the long row under
header a make analyze_csv_data panic (none), and the issues flag is not set
to true on that path. -/
theorem c4_counterexample :
    analyze_csv_data DataSampleParser.new ⟨["a", "b", "c"], [["x", "y"]]⟩ = none ∧
      analyze_csv_data DataSampleParser.new ⟨["a"], [["x", "y"]]⟩ = none ∧
      running_with_issues (afterAnalyze DataSampleParser.new ⟨["a", "b", "c"], [["x", "y"]]⟩) =
        false := by
  refine ⟨by decide, by decide, by decide⟩

/-- C4 (amended): a row whose field count differs from the header's aborts
the analysis: the strict csv reader reports UnequalLengths and the
result.expect call panics (none); the row is neither padded nor truncated
and the issues flag is never set. -/
theorem c4_mismatched_row_aborts (p : DataSampleParser) (hdr : List String)
    (row : List String) (rest : List (List String)) (h : row.length ≠ hdr.length) :
    analyze_csv_data p ⟨hdr, row :: rest⟩ = none := by
  cases hres : analyze_csv_data p ⟨hdr, row :: rest⟩ with
  | none => rfl
  | some qn =>
    exfalso
    rcases qn with ⟨q, n⟩
    obtain ⟨m, hm, -, -⟩ := analyze_csv_data_some _ _ _ _ hres
    have hm' : analyzeRows (pmKeys (headerProfiles p.profiles hdr)) hdr.length
        (headerProfiles p.profiles hdr) (row :: rest) = some m := hm
    simp [analyzeRows, h] at hm'

/-- C4 witness: the concrete short row of the specification scenario. -/
theorem c4_witness :
    (["x", "y"] : List String).length ≠ (["a", "b", "c"] : List String).length ∧
      analyze_csv_data DataSampleParser.new ⟨["a", "b", "c"], [["x", "y"]]⟩ = none :=
  ⟨by decide, c4_mismatched_row_aborts DataSampleParser.new ["a", "b", "c"] ["x", "y"] []
    (by decide)⟩

/-- C5 counterexample: generating by an unregistered field name does not
return an error value to the caller: the unwrap on the missing profile is a
panic (none). -/
theorem c5_counterexample :
    generate_by_field_name DataSampleParser.new "firstname" = none := by
  decide

/-- C5 (amended): for every field name with no registered profile,
generate_by_field_name panics (unwrap of None, modelled none) instead of
returning an UnknownField error. -/
theorem c5_unknown_field_panics (p : DataSampleParser) (f : String)
    (h : pmLookup f p.profiles = none) : generate_by_field_name p f = none := by
  unfold generate_by_field_name
  rw [h]

/-- C5 witness: the fresh parsing state has no profile for firstname. -/
theorem c5_witness :
    pmLookup "firstname" DataSampleParser.new.profiles = none ∧
      generate_by_field_name DataSampleParser.new "firstname" = none :=
  ⟨by decide, c5_unknown_field_panics DataSampleParser.new "firstname" (by decide)⟩

/-- C6: the archive round-trip: from_file after save reconstructs the exact
DataSampleParser (profiles, field set, flags), so generate_record on the
restored state equals generate_record on the original state. -/
theorem c6_archive_roundtrip (p : DataSampleParser) :
    from_file (save p) = some p ∧
      (from_file (save p)).map (fun q => (generate_record q).1) =
        some ((generate_record p).1) := by
  have h : from_file (save p) = some p := by
    rcases p with ⟨issues, cfg, profs⟩
    simp [save, from_file, decBool, decCfg_enc, decList_enc _ _ decProfilesEntry_enc]
  refine ⟨h, ?_⟩
  rw [h]
  rfl

/-- C7: analyzing a header a,b with zero data rows succeeds, pre_generate
has run on both registered profiles, and generate_record then returns one
empty string per field. -/
theorem c7_empty_rows_generate_empty :
    (analyze_csv_data DataSampleParser.new ⟨["a", "b"], []⟩).isSome = true ∧
      (afterAnalyze DataSampleParser.new ⟨["a", "b"], []⟩).profiles.map
          (fun kv => kv.2.finalized) = [true, true] ∧
      (generate_record (afterAnalyze DataSampleParser.new ⟨["a", "b"], []⟩)).1 = ["", ""] := by
  refine ⟨by decide, by decide, by decide⟩

/-- C8 counterexample: the strings a and b are completely disjoint (their
levenshtein distance 1 is the maximum possible for their lengths), yet
realistic_test scores them 50, not 0; the intermediate subtraction in the
source expression cancels. -/
theorem c8_counterexample :
    levenshtein_distance "a" "b" = 1 ∧ realistic_test "a" "b" = 50 ∧ (50 : ℚ) ≠ 0 := by
  have h1 : levenshtein_distance "a" "b" = 1 := by
    show levDist ['a'] ['b'] = 1
    simp [levDist]
  refine ⟨h1, ?_, by norm_num⟩
  unfold realistic_test
  rw [h1, show ("a" : String).length = 1 from rfl, show ("b" : String).length = 1 from rfl]
  norm_num

/-- C8 (amended): the source expression algebraically collapses: the double
subtraction cancels, leaving (1 - distance / total) * 100; identical
non-empty strings therefore score exactly 100, but completely disjoint
strings do not score 0 (equal-length disjoint pairs score 50). -/
theorem c8_collapse_and_identity :
    (∀ control experiment : String,
        realistic_test control experiment =
          (1 - (levenshtein_distance control experiment : ℚ) /
              ((control.length : ℚ) + (experiment.length : ℚ))) * 100) ∧
      (∀ s : String, 0 < s.length → realistic_test s s = 100) := by
  constructor
  · intro c e
    unfold realistic_test
    ring
  · intro s hs
    unfold realistic_test
    rw [show levenshtein_distance s s = 0 from levDist_self s.data]
    simp only [Nat.cast_zero, sub_zero, sub_self, zero_div, one_mul]

/-- C8 witness: the identity part of the amended claim at the non-empty
string OK. -/
theorem c8_witness : 0 < ("OK" : String).length ∧ realistic_test "OK" "OK" = 100 :=
  ⟨by decide, c8_collapse_and_identity.2 "OK" (by decide)⟩

/-- C9: no operation of the module ever sets the issues flag: after any
sequence of analyze, generate and header calls on a parser built with new
or new_with, running_with_issues is still false. -/
theorem c9_issues_never_set (s : Option String) (ops : List ParserOp) :
    running_with_issues (runOps (initParser s) ops) = false := by
  have key : ∀ (ops : List ParserOp) (p : DataSampleParser),
      (runOps p ops).issues = p.issues := by
    intro ops
    induction ops with
    | nil => intro p; rfl
    | cons op rest ih =>
      intro p
      show (runOps (applyOp p op) rest).issues = p.issues
      rw [ih, applyOp_issues]
  show (runOps (initParser s) ops).issues = false
  rw [key]
  cases s <;> rfl

/-- C10: frame property of generate_by_field_name: a successful call leaves
the issues flag, the field-name set, and every profile stored under a
different key unchanged. -/
theorem c10_generate_by_field_frame (p : DataSampleParser) (f s : String)
    (q : DataSampleParser) (h : generate_by_field_name p f = some (s, q)) :
    q.issues = p.issues ∧ pmKeys q.profiles = pmKeys p.profiles ∧
      ∀ k, k ≠ f → pmLookup k q.profiles = pmLookup k p.profiles := by
  obtain ⟨pr, -, hq⟩ := generate_by_field_name_some h
  subst hq
  exact ⟨rfl, pmUpdate_keys f _ p.profiles,
    fun k hk => pmUpdate_lookup_ne f k _ hk p.profiles⟩

/-- C10 witness: a parser with the single field a; generating by that field
leaves the state observably unchanged elsewhere. -/
theorem c10_witness :
    generate_by_field_name (⟨false, none, [("a", Profile.new)]⟩ : DataSampleParser) "a" =
        some ("", (⟨false, none, [("a", Profile.new)]⟩ : DataSampleParser)) ∧
      ((⟨false, none, [("a", Profile.new)]⟩ : DataSampleParser).issues =
          (⟨false, none, [("a", Profile.new)]⟩ : DataSampleParser).issues ∧
        pmKeys (⟨false, none, [("a", Profile.new)]⟩ : DataSampleParser).profiles =
          pmKeys (⟨false, none, [("a", Profile.new)]⟩ : DataSampleParser).profiles ∧
        ∀ k, k ≠ "a" →
          pmLookup k (⟨false, none, [("a", Profile.new)]⟩ : DataSampleParser).profiles =
            pmLookup k (⟨false, none, [("a", Profile.new)]⟩ : DataSampleParser).profiles) :=
  ⟨by decide, c10_generate_by_field_frame _ "a" "" _ (by decide)⟩

end TDG
